/-
Verification of the figgie-auto trading agents (src/player/event_driven.rs and
src/player/generic.rs) against their natural-language specification.

The Rust code is shallowly embedded: pure program fragments become Lean
functions, the per-event state transitions of each agent become explicit
step functions on a state structure, machine-integer subtraction that can
underflow (u64/usize) is modelled with an explicit checked subtraction, and
code paths that panic (`Option::unwrap` on `None`, `Result::unwrap` on a
receive error, arithmetic underflow, `gen_range` on an empty range) return
`Except Panic _`.

The repository's shared data types (`Card`, `Direction`, `Quote`, `Book`,
`Trade`, `Inventory`, `Order`, `Event`, `PlayerName`) live in a module that
is not part of the provided sources (the player files import them from
`super::`); their shapes are reconstructed from how the player code uses
their fields, and their behaviour, where needed, from the specification's
data model (see the doc comments marked "Modelled from the spec").
-/
import Mathlib

namespace FiggieAuto

/-- Agent identities used by the player code (`PlayerName::PickOff`,
`PlayerName::Noisy`, `PlayerName::Seller`, `PlayerName::Spread`). -/
inductive PlayerName where
  | PickOff
  | Noisy
  | Seller
  | Spread
deriving DecidableEq, Repr

/-- The four instruments (`Card::Spade`, `Card::Club`, `Card::Diamond`,
`Card::Heart`). -/
inductive Card where
  | Spade
  | Club
  | Diamond
  | Heart
deriving DecidableEq, Repr

/-- Order direction (`Direction::Buy`, `Direction::Sell`). -/
inductive Direction where
  | Buy
  | Sell
deriving DecidableEq, Repr

/-- Modelled from the spec: a `Quote` is a priced resting offer with an
owning agent; the player code reads `quote.price` and `quote.player_name`. -/
structure Quote where
  price : Nat
  player_name : PlayerName
deriving DecidableEq, Repr

/-- Modelled from the spec: a `Book` is best bid/ask plus optional last
trade price for one instrument; the player code reads `book.bid`,
`book.ask` and `book.last_trade`. -/
structure Book where
  bid : Quote
  ask : Quote
  last_trade : Option Nat
deriving DecidableEq, Repr

/-- Modelled from the spec: a realized `Trade` between a buyer and a seller;
the player code reads `trade.buyer`, `trade.seller`, `trade.card`. -/
structure Trade where
  buyer : PlayerName
  seller : PlayerName
  card : Card
  price : Nat
deriving DecidableEq, Repr

/-- Modelled from the spec: per-agent holdings count per instrument; the
player code reads the four fields `spades`, `clubs`, `diamonds`, `hearts`
(usize counts, hence `Nat`). -/
structure Inventory where
  spades : Nat
  clubs : Nat
  diamonds : Nat
  hearts : Nat
deriving DecidableEq, Repr

/-- Holdings count for one instrument. -/
def Inventory.get (inv : Inventory) : Card → Nat
  | Card.Spade => inv.spades
  | Card.Club => inv.clubs
  | Card.Diamond => inv.diamonds
  | Card.Heart => inv.hearts

/-- Modelled from the spec: `Inventory::change(card, up)` is the mutation
used by both players on a trade — "buyer (+1) or seller (−1) for the traded
instrument". The counts are usize, so the decrement is `Nat` subtraction;
the spec's protocol invariant ("never negative — agents only sell when
holding stock") guarantees the decremented field is positive. -/
def Inventory.change (inv : Inventory) (card : Card) (up : Bool) : Inventory :=
  match card with
  | Card.Spade => { inv with spades := if up then inv.spades + 1 else inv.spades - 1 }
  | Card.Club => { inv with clubs := if up then inv.clubs + 1 else inv.clubs - 1 }
  | Card.Diamond => { inv with diamonds := if up then inv.diamonds + 1 else inv.diamonds - 1 }
  | Card.Heart => { inv with hearts := if up then inv.hearts + 1 else inv.hearts - 1 }

/-- An order as constructed in `send_order` (`Order { player_name, price,
direction, card }`). -/
structure Order where
  player_name : PlayerName
  price : Nat
  direction : Direction
  card : Card
deriving DecidableEq, Repr

/-- The payload of `Event::Update`: one whole book per instrument plus an
optional realized trade (fields `spades`, `clubs`, `diamonds`, `hearts`,
`trade` as read by the player code). -/
structure MarketUpdate where
  spades : Book
  clubs : Book
  diamonds : Book
  hearts : Book
  trade : Option Trade
deriving DecidableEq, Repr

/-- The event bus values: `Event::Update`, `Event::DealCards` (a mapping
from agent identity to dealt inventory, modelled as an association list),
`Event::EndRound`. -/
inductive Event where
  | update (u : MarketUpdate)
  | dealCards (m : List (PlayerName × Inventory))
  | endRound
deriving DecidableEq, Repr

/-- Lookup of `players_inventory.get(&name)` on the `DealCards` mapping. -/
def lookupInv (n : PlayerName) : List (PlayerName × Inventory) → Option Inventory
  | [] => none
  | (k, v) :: rest => if k = n then some v else lookupInv n rest

/-- Panics the player code can hit, used as the error side of `Except`. -/
inductive Panic where
  /-- Panic of `Option::unwrap()` on `None` — `DealCards` mapping missing this agent. -/
  | unwrapNone
  /-- Panic of `Result::unwrap()` on a broadcast-receive error (generic listener). -/
  | unwrapRecvErr
  /-- Underflow of the u64 subtraction in `240 - timer.elapsed().as_secs()`. -/
  | subUnderflow
  /-- Panic of `rng.gen_range` called on an empty range. -/
  | emptyRange
deriving DecidableEq, Repr

/-- Checked u64 subtraction: Rust `a - b` on unsigned integers is only
defined when `b ≤ a`; otherwise it underflows (a panic in debug builds). -/
def u64Sub (a b : Nat) : Option Nat :=
  if b ≤ a then some (a - b) else none

/-- Embeds `EventDrivenPlayer::send_order` and `GenericPlayer::send_order`
(textually identical in the two files): gate the order on improving the
counter-quote and on the resting quote's owner not being this agent, then
submit it on the egress channel. `some o` means the order passed the gate
and was submitted; `none` means no order was sent. -/
def sendOrder (selfName : PlayerName) (price : Nat) (direction : Direction)
    (card : Card) (book : Book) : Option Order :=
  let trade : Bool :=
    match direction with
    | Direction.Buy => decide (book.bid.price < price ∧ book.bid.player_name ≠ selfName)
    | Direction.Sell => decide (book.ask.price > price ∧ book.ask.player_name ≠ selfName)
  if trade then
    some { player_name := selfName, price := price, direction := direction, card := card }
  else
    none

/-- The trade block shared by `EventDrivenPlayer::start` (Update arm) and
`GenericPlayer::listen_to_events` (Update arm): when the update carries a
trade, push it onto the history unconditionally, then increment the traded
instrument if this agent is the buyer, else decrement it if this agent is
the seller, else leave the inventory alone. Returns the new inventory and
history. -/
def applyTrade (selfName : PlayerName) (inventory : Inventory)
    (trades : List Trade) : Option Trade → Inventory × List Trade
  | none => (inventory, trades)
  | some trade =>
    let trades' := trades ++ [trade]
    let inventory' :=
      if trade.buyer = selfName then inventory.change trade.card true
      else if trade.seller = selfName then inventory.change trade.card false
      else inventory
    (inventory', trades')

/-- Embeds `EventDrivenPlayer::get_max_price_from_seconds`. -/
def get_max_price_from_seconds (seconds_left : Nat) : Nat × Nat :=
  if seconds_left < 20 then (0, 0)
  else if seconds_left < 40 then (2, 3)
  else if seconds_left < 60 then (3, 4)
  else if seconds_left < 120 then (4, 6)
  else (5, 8)

/-- Embeds `EventDrivenPlayer::pick_off`: the orders this strategy submits for one
instrument, in submission order (each `send_order` call contributes its
optional submitted order). -/
def pick_off (selfName : PlayerName) (seconds_left inventory : Nat)
    (book : Book) (card : Card) : List Order :=
  let prices := get_max_price_from_seconds seconds_left
  (if inventory ≤ 2 then
    if book.ask.price < prices.1 then
      (sendOrder selfName book.ask.price Direction.Buy card book).toList
    else []
  else []) ++
  (if inventory > 0 then
    (if book.bid.price ≥ prices.2 then
      (sendOrder selfName book.bid.price Direction.Sell card book).toList
    else []) ++
    (if book.ask.price > 5 then
      (sendOrder selfName (book.ask.price - 1) Direction.Sell card book).toList
    else [])
  else [])

/-- The loop state of `EventDrivenPlayer`: identity, round timer (modelled
as the absolute time of the last reset), local inventory, local trade
history and the shared trading flag (verbosity and the channel handles only
affect logging/transport and are omitted). -/
structure EventDrivenPlayer where
  name : PlayerName
  timer : Nat
  inventory : Inventory
  trades : List Trade
  trading : Bool
deriving DecidableEq, Repr

/-- One iteration of the event loop in `EventDrivenPlayer::start` for a
received event, at absolute time `now` (so `timer.elapsed()` is
`now - s.timer`). Returns the successor state and the orders submitted
while processing the event, or the panic that aborts the loop.
The Idle branch of `Update` sleeps one second and `continue`s without
touching the event body; `DealCards` unwraps this agent's entry (panicking
when absent), replaces the inventory, opens the gate and resets the timer;
`EndRound` closes the gate. -/
def edStep (s : EventDrivenPlayer) (now : Nat) :
    Event → Except Panic (EventDrivenPlayer × List Order)
  | Event.update u =>
    if s.trading = false then Except.ok (s, [])
    else
      let it := applyTrade s.name s.inventory s.trades u.trade
      match u64Sub 240 (now - s.timer) with
      | none => Except.error Panic.subUnderflow
      | some seconds_left =>
        let orders :=
          match s.name with
          | PlayerName.PickOff =>
            pick_off s.name seconds_left it.1.spades u.spades Card.Spade ++
            pick_off s.name seconds_left it.1.clubs u.clubs Card.Club ++
            pick_off s.name seconds_left it.1.diamonds u.diamonds Card.Diamond ++
            pick_off s.name seconds_left it.1.hearts u.hearts Card.Heart
          | _ => []
        Except.ok ({ s with inventory := it.1, trades := it.2 }, orders)
  | Event.dealCards m =>
    match lookupInv s.name m with
    | none => Except.error Panic.unwrapNone
    | some inv =>
      Except.ok ({ s with inventory := inv, trading := true, timer := now }, [])
  | Event.endRound =>
    Except.ok ({ s with trading := false }, [])

/-- Folding `edStep` over a timed event sequence: the whole reactive loop.
A panic aborts the loop; otherwise the submitted orders accumulate in
order. -/
def edRun (s : EventDrivenPlayer) :
    List (Nat × Event) → Except Panic (EventDrivenPlayer × List Order)
  | [] => Except.ok (s, [])
  | (now, e) :: rest =>
    match edStep s now e with
    | Except.error p => Except.error p
    | Except.ok (s', orders) =>
      match edRun s' rest with
      | Except.error p => Except.error p
      | Except.ok (s'', more) => Except.ok (s'', orders ++ more)

/-- Outcome of one `broadcast::Receiver::recv().await`: an event, or the
two error cases (a lagged subscriber that missed events, or a closed
channel). -/
inductive RecvResult where
  | received (e : Event)
  | lagged
  | closed
deriving DecidableEq, Repr

/-- The `if let Ok(event) = event_receiver.recv().await ... else` shape of
`EventDrivenPlayer::start`: a receive error only prints a diagnostic and
the loop continues with an unchanged state and no orders. -/
def edRecvStep (s : EventDrivenPlayer) (now : Nat) :
    RecvResult → Except Panic (EventDrivenPlayer × List Order)
  | RecvResult.received e => edStep s now e
  | RecvResult.lagged => Except.ok (s, [])
  | RecvResult.closed => Except.ok (s, [])

/-- The shared cells of `GenericPlayer` as written by its listener task:
the four per-instrument books, the inventory, the trade history, the
trading flag and the round timer (modelled as the absolute time of the last
reset). -/
structure GenericListener where
  spades_book : Book
  clubs_book : Book
  diamonds_book : Book
  hearts_book : Book
  inventory : Inventory
  trades : List Trade
  trading : Bool
  timer : Nat
deriving DecidableEq, Repr

/-- One iteration of the spawned listener loop in
`GenericPlayer::listen_to_events` for a received event at absolute time
`now`: `Update` applies any embedded trade and replaces all four cached
books; `DealCards` unwraps this agent's entry (panicking when absent),
replaces the inventory, opens the gate and resets the timer; `EndRound`
closes the gate. The listener never submits orders. -/
def listenerStep (selfName : PlayerName) (s : GenericListener) (now : Nat) :
    Event → Except Panic GenericListener
  | Event.update u =>
    let it := applyTrade selfName s.inventory s.trades u.trade
    Except.ok { s with
      inventory := it.1, trades := it.2,
      spades_book := u.spades, clubs_book := u.clubs,
      diamonds_book := u.diamonds, hearts_book := u.hearts }
  | Event.dealCards m =>
    match lookupInv selfName m with
    | none => Except.error Panic.unwrapNone
    | some inv =>
      Except.ok { s with inventory := inv, trading := true, timer := now }
  | Event.endRound =>
    Except.ok { s with trading := false }

/-- The `event_receiver.recv().await.unwrap()` at the head of the generic
listener loop: a receive error (lagged or closed) is unwrapped and panics,
killing the listener task. -/
def listenerRecvStep (selfName : PlayerName) (s : GenericListener) (now : Nat) :
    RecvResult → Except Panic GenericListener
  | RecvResult.received e => listenerStep selfName s now e
  | RecvResult.lagged => Except.error Panic.unwrapRecvErr
  | RecvResult.closed => Except.error Panic.unwrapRecvErr

/-- Embeds `rng.gen_range(lo..hi)`: a uniform draw from the half-open range
`[lo, hi)`, panicking on an empty range. The generator is modelled by an
arbitrary seed; the draw is `lo + seed % (hi - lo)`, which for seeds ranging
over `[0, hi - lo)` hits every value of `[lo, hi)` exactly once. -/
def genRange (lo hi seed : Nat) : Option Nat :=
  if lo < hi then some (lo + seed % (hi - lo)) else none

/-- Embeds `GenericPlayer::noisy_trader`: pick a random instrument, a random side
and a random price in `[1, 15)`; both sides call `send_order` with
`Direction::Sell` (as the source does), gated on the inventory bound of the
chosen side. The three random draws are passed in as `cardSeed`, `isBuy`
and `priceSeed`. -/
def noisy_trader (selfName : PlayerName) (inventory : Inventory)
    (spades_book clubs_book diamonds_book hearts_book : Book)
    (cardSeed : Nat) (isBuy : Bool) (priceSeed : Nat) :
    Except Panic (List Order) :=
  match genRange 1 5 cardSeed with
  | none => Except.error Panic.emptyRange
  | some k =>
    let pick : Card × Nat × Book :=
      if k = 1 then (Card.Spade, inventory.spades, spades_book)
      else if k = 2 then (Card.Club, inventory.clubs, clubs_book)
      else if k = 3 then (Card.Diamond, inventory.diamonds, diamonds_book)
      else if k = 4 then (Card.Heart, inventory.hearts, hearts_book)
      else (Card.Spade, 0, spades_book)
    match genRange 1 15 priceSeed with
    | none => Except.error Panic.emptyRange
    | some price =>
      match isBuy with
      | true =>
        if pick.2.1 < 4 then
          Except.ok (sendOrder selfName price Direction.Sell pick.1 pick.2.2).toList
        else Except.ok []
      | false =>
        if pick.2.1 > 0 then
          Except.ok (sendOrder selfName price Direction.Sell pick.1 pick.2.2).toList
        else Except.ok []

/-- Embeds `GenericPlayer::sell_inventory`: liquidate one instrument by undercutting
the ask by 1, with a looser threshold in the last 30 seconds. -/
def sell_inventory (selfName : PlayerName) (seconds_left inventory : Nat)
    (book : Book) (card : Card) : List Order :=
  if inventory > 0 then
    if seconds_left > 30 then
      if book.ask.price > 7 then
        (sendOrder selfName (book.ask.price - 1) Direction.Sell card book).toList
      else []
    else
      if book.ask.price > 4 then
        (sendOrder selfName (book.ask.price - 1) Direction.Sell card book).toList
      else []
  else []

/-- Model of `(x as f32 * 1.25).round() as usize`: exact for the small prices in
play (below 2^22 every multiple of 0.25 is an exact f32 and `round` is
half-away-from-zero), so it equals `(5 * x + 2) / 4` in integers. -/
def roundMul125 (x : Nat) : Nat := (5 * x + 2) / 4

/-- Model of `(x as f32 * 0.75).round() as usize`, likewise `(3 * x + 2) / 4`. -/
def roundMul075 (x : Nat) : Nat := (3 * x + 2) / 4

/-- Embeds `GenericPlayer::provide_spread`: quote a premium ask above the last
trade (or undercut a high ask), and while more than 20 seconds remain, bid
below the last trade (or improve the bid by 1 when there is none). -/
def provide_spread (selfName : PlayerName) (seconds_left inventory : Nat)
    (book : Book) (card : Card) : List Order :=
  (if inventory > 0 then
    match book.last_trade with
    | some last_trade =>
      (if last_trade > 10 then
        (sendOrder selfName (roundMul125 last_trade) Direction.Sell card book).toList
      else []) ++
      (if book.ask.price > 10 then
        (sendOrder selfName 10 Direction.Sell card book).toList
      else [])
    | none =>
      if book.ask.price > 7 then
        (sendOrder selfName (book.ask.price - 1) Direction.Sell card book).toList
      else []
  else []) ++
  (if seconds_left > 20 then
    match book.last_trade with
    | some last_trade =>
      (if last_trade < 4 then
        (sendOrder selfName 4 Direction.Buy card book).toList
      else []) ++
      (if roundMul075 last_trade < 8 then
        (sendOrder selfName (roundMul075 last_trade) Direction.Buy card book).toList
      else [])
    | none =>
      (sendOrder selfName (book.bid.price + 1) Direction.Buy card book).toList
  else [])

/-- The sleep of the Idle branch of `GenericPlayer::start`, in
milliseconds: `tokio::time::sleep(Duration::from_secs(1))`. -/
def idleSleepMillis : Nat := 1000

/-- One iteration of the decision loop in `GenericPlayer::start`, acting on
the values it observes: the trading flag, the elapsed whole seconds of the
round timer, and the snapshots of inventory and the four books copied out
of the shared cells. Returns the submitted orders and the sleep duration in
milliseconds before the next iteration. The Idle branch sleeps 1 second and
re-checks; the Trading branch computes `240 - elapsed` (a possible u64
underflow), dispatches on the agent kind, and finally sleeps
`rng.gen_range(lower_frequency..higher_frequency)` milliseconds. -/
def genericDecideStep (selfName : PlayerName)
    (lower_frequency higher_frequency : Nat) (trading : Bool) (elapsed : Nat)
    (inventory : Inventory)
    (spades_book clubs_book diamonds_book hearts_book : Book)
    (cardSeed : Nat) (isBuy : Bool) (priceSeed sleepSeed : Nat) :
    Except Panic (List Order × Nat) :=
  if trading = false then Except.ok ([], idleSleepMillis)
  else
    match u64Sub 240 elapsed with
    | none => Except.error Panic.subUnderflow
    | some seconds_left =>
      let ordersE : Except Panic (List Order) :=
        match selfName with
        | PlayerName.Noisy =>
          noisy_trader selfName inventory spades_book clubs_book diamonds_book
            hearts_book cardSeed isBuy priceSeed
        | PlayerName.Seller => Except.ok (
            sell_inventory selfName seconds_left inventory.spades spades_book Card.Spade ++
            sell_inventory selfName seconds_left inventory.clubs clubs_book Card.Club ++
            sell_inventory selfName seconds_left inventory.diamonds diamonds_book Card.Diamond ++
            sell_inventory selfName seconds_left inventory.hearts hearts_book Card.Heart)
        | PlayerName.Spread => Except.ok (
            provide_spread selfName seconds_left inventory.spades spades_book Card.Spade ++
            provide_spread selfName seconds_left inventory.clubs clubs_book Card.Club ++
            provide_spread selfName seconds_left inventory.diamonds diamonds_book Card.Diamond ++
            provide_spread selfName seconds_left inventory.hearts hearts_book Card.Heart)
        | _ => Except.ok []
      match ordersE with
      | Except.error p => Except.error p
      | Except.ok orders =>
        match genRange lower_frequency higher_frequency sleepSeed with
        | none => Except.error Panic.emptyRange
        | some d => Except.ok (orders, d)

end FiggieAuto

namespace FiggieAuto

/-- A concrete book used to witness theorems with hypotheses. -/
def bookW : Book :=
  { bid := { price := 0, player_name := PlayerName.Noisy },
    ask := { price := 8, player_name := PlayerName.Noisy },
    last_trade := none }

/-- The single order of the Scenario-A style witnesses. -/
def orderW : Order :=
  { player_name := PlayerName.Seller, price := 7,
    direction := Direction.Sell, card := Card.Spade }

/-- C1: an order is placed on the egress channel only if it improves the
counter-quote (Buy: price strictly above the bid price; Sell: price strictly
below the ask price) and the owner of the quote it is checked against is not
the acting agent itself; the submitted order carries the acting agent's
identity, the given price, direction and instrument (so in particular no
order is ever submitted against a quote the agent itself owns). -/
theorem sendOrder_gates_improvement_and_self_trade
    (selfName : PlayerName) (price : Nat) (direction : Direction)
    (card : Card) (book : Book) (o : Order)
    (h : sendOrder selfName price direction card book = some o) :
    (direction = Direction.Buy →
      book.bid.price < price ∧ book.bid.player_name ≠ selfName) ∧
    (direction = Direction.Sell →
      price < book.ask.price ∧ book.ask.player_name ≠ selfName) ∧
    o.player_name = selfName ∧ o.price = price ∧
    o.direction = direction ∧ o.card = card := by
  cases direction with
  | Buy =>
    by_cases hc : book.bid.price < price ∧ book.bid.player_name ≠ selfName
    · simp [sendOrder, hc] at h
      subst h
      simp [hc]
    · simp [sendOrder, hc] at h
  | Sell =>
    by_cases hc : book.ask.price > price ∧ book.ask.player_name ≠ selfName
    · simp [sendOrder, hc] at h
      subst h
      simp [hc]
    · simp [sendOrder, hc] at h

/-- Witness for C1 at a concrete input: selling spades at 7 into a book
whose ask is 8 and owned by another agent. -/
theorem sendOrder_gates_improvement_and_self_trade_witness :
    (Direction.Sell = Direction.Buy →
      bookW.bid.price < 7 ∧ bookW.bid.player_name ≠ PlayerName.Seller) ∧
    (Direction.Sell = Direction.Sell →
      7 < bookW.ask.price ∧ bookW.ask.player_name ≠ PlayerName.Seller) ∧
    orderW.player_name = PlayerName.Seller ∧ orderW.price = 7 ∧
    orderW.direction = Direction.Sell ∧ orderW.card = Card.Spade :=
  sendOrder_gates_improvement_and_self_trade PlayerName.Seller 7 Direction.Sell
    Card.Spade bookW orderW (by decide)

/-- A concrete inventory (three spades) used in witnesses. -/
def invW : Inventory := { spades := 3, clubs := 0, diamonds := 0, hearts := 0 }

/-- A second concrete inventory, distinct from `invW`, used to witness that
`DealCards` replaces rather than merges. -/
def invW2 : Inventory := { spades := 1, clubs := 2, diamonds := 3, hearts := 4 }

/-- A concrete market update carrying no trade. -/
def updW : MarketUpdate :=
  { spades := bookW, clubs := bookW, diamonds := bookW, hearts := bookW, trade := none }

/-- A concrete trade in which `Seller` is the selling party. -/
def tradeSellW : Trade :=
  { buyer := PlayerName.Noisy, seller := PlayerName.Seller,
    card := Card.Spade, price := 5 }

/-- A concrete trade in which `PickOff` is the buying party. -/
def tradeBuyW : Trade :=
  { buyer := PlayerName.PickOff, seller := PlayerName.Noisy,
    card := Card.Spade, price := 5 }

/-- A concrete market update carrying `tradeBuyW`. -/
def updTradeW : MarketUpdate :=
  { spades := bookW, clubs := bookW, diamonds := bookW, hearts := bookW,
    trade := some tradeBuyW }

/-- A concrete reactive-agent state whose gate is Idle. -/
def edIdleW : EventDrivenPlayer :=
  { name := PlayerName.PickOff, timer := 0, inventory := invW,
    trades := [], trading := false }

/-- A concrete reactive-agent state whose gate is Trading. -/
def edTradingW : EventDrivenPlayer :=
  { name := PlayerName.PickOff, timer := 0, inventory := invW,
    trades := [], trading := true }

/-- A concrete listener state for the polling agent. -/
def glW : GenericListener :=
  { spades_book := bookW, clubs_book := bookW, diamonds_book := bookW,
    hearts_book := bookW, inventory := invW, trades := [],
    trading := false, timer := 0 }

/-- A concrete `DealCards` mapping that contains `PickOff`. -/
def mW : List (PlayerName × Inventory) := [(PlayerName.PickOff, invW2)]

/-- A concrete `DealCards` mapping that does not contain `PickOff`. -/
def mMissW : List (PlayerName × Inventory) := [(PlayerName.Noisy, invW2)]

/-- Helper: the reactive loop maps any sequence of `Update` events received
while the gate is Idle to an unchanged state and no orders. -/
theorem edRun_idle_updates (s : EventDrivenPlayer) (hidle : s.trading = false) :
    ∀ evs : List (Nat × Event), (∀ p ∈ evs, ∃ u, p.2 = Event.update u) →
      edRun s evs = Except.ok (s, [])
  | [], _ => rfl
  | (now, e) :: rest, h => by
    obtain ⟨u, hu⟩ := h (now, e) (List.mem_cons_self _ _)
    dsimp at hu
    subst hu
    have hrest := edRun_idle_updates s hidle rest fun q hq => h q (List.mem_cons_of_mem _ hq)
    simp [edRun, edStep, hidle, hrest]

/-- C2: while the trading gate is Idle, an agent submits no order on any
sequence of `Update` events — the reactive loop skips strategy invocation
on every such event (leaving the state unchanged), and a polling decision
iteration that observes the gate Idle invokes no strategy and submits
nothing. -/
theorem no_orders_while_gate_idle
    (s : EventDrivenPlayer) (evs : List (Nat × Event))
    (hidle : s.trading = false)
    (hupd : ∀ p ∈ evs, ∃ u, p.2 = Event.update u)
    (selfName : PlayerName) (lo hi elapsed : Nat) (inv : Inventory)
    (b1 b2 b3 b4 : Book) (cs : Nat) (ib : Bool) (ps ss : Nat) :
    edRun s evs = Except.ok (s, []) ∧
    genericDecideStep selfName lo hi false elapsed inv b1 b2 b3 b4 cs ib ps ss =
      Except.ok ([], idleSleepMillis) :=
  ⟨edRun_idle_updates s hidle evs hupd, rfl⟩

/-- Witness for C2: an Idle reactive agent fed one `Update`, and an Idle
polling decision iteration. -/
theorem no_orders_while_gate_idle_witness :
    edRun edIdleW [(0, Event.update updW)] = Except.ok (edIdleW, []) ∧
    genericDecideStep PlayerName.Seller 10 20 false 0 invW bookW bookW bookW bookW
      0 true 0 0 = Except.ok ([], idleSleepMillis) :=
  no_orders_while_gate_idle edIdleW [(0, Event.update updW)] rfl
    (by
      intro p hp
      rw [List.mem_singleton] at hp
      subst hp
      exact ⟨updW, rfl⟩)
    PlayerName.Seller 10 20 0 invW bookW bookW bookW bookW 0 true 0 0

/-- Helper: changing one instrument's count leaves the others alone. -/
theorem Inventory.get_change_self (inv : Inventory) (c : Card) (up : Bool) :
    (inv.change c up).get c = if up then inv.get c + 1 else inv.get c - 1 := by
  cases c <;> cases up <;> rfl

/-- Helper: `Inventory.change` on one card reads back unchanged on any
other card. -/
theorem Inventory.get_change_other (inv : Inventory) (c c' : Card)
    (h : c' ≠ c) (up : Bool) :
    (inv.change c up).get c' = inv.get c' := by
  cases c <;> cases c' <;> simp_all [Inventory.change, Inventory.get]

/-- C3: processing a carried trade appends it to the agent's history
unconditionally; when the agent is the buyer its count for the traded
instrument rises by exactly 1 and the other three instruments are
untouched; when it is the seller (and not the buyer) its count falls by
exactly 1 (under the protocol invariant that the count was positive) with
the other instruments untouched; an agent that is neither buyer nor seller
keeps its inventory entirely unchanged. -/
theorem trade_updates_inventory_by_one
    (selfName : PlayerName) (inv : Inventory) (trs : List Trade) (t : Trade) :
    (applyTrade selfName inv trs (some t)).2 = trs ++ [t] ∧
    (t.buyer = selfName →
      (applyTrade selfName inv trs (some t)).1.get t.card = inv.get t.card + 1 ∧
      ∀ c, c ≠ t.card → (applyTrade selfName inv trs (some t)).1.get c = inv.get c) ∧
    (t.buyer ≠ selfName → t.seller = selfName → 0 < inv.get t.card →
      (applyTrade selfName inv trs (some t)).1.get t.card + 1 = inv.get t.card ∧
      ∀ c, c ≠ t.card → (applyTrade selfName inv trs (some t)).1.get c = inv.get c) ∧
    (t.buyer ≠ selfName → t.seller ≠ selfName →
      (applyTrade selfName inv trs (some t)).1 = inv) := by
  refine ⟨rfl, ?_, ?_, ?_⟩
  · intro hb
    refine ⟨?_, fun c hc => ?_⟩
    · simp [applyTrade, hb, Inventory.get_change_self]
    · simp [applyTrade, hb, Inventory.get_change_other inv t.card c hc]
  · intro hb hs hpos
    refine ⟨?_, fun c hc => ?_⟩
    · simp [applyTrade, hb, hs, Inventory.get_change_self]
      omega
    · simp [applyTrade, hb, hs, Inventory.get_change_other inv t.card c hc]
  · intro hb hs
    simp [applyTrade, hb, hs]

/-- Witness for C3: the `Seller` agent sells one of its three spades — the
spade count drops by exactly one and the club count is untouched. -/
theorem trade_updates_inventory_by_one_witness :
    (applyTrade PlayerName.Seller invW [] (some tradeSellW)).2 = [] ++ [tradeSellW] ∧
    (applyTrade PlayerName.Seller invW [] (some tradeSellW)).1.get tradeSellW.card + 1 =
      invW.get tradeSellW.card ∧
    (applyTrade PlayerName.Seller invW [] (some tradeSellW)).1.get Card.Club =
      invW.get Card.Club :=
  ⟨(trade_updates_inventory_by_one PlayerName.Seller invW [] tradeSellW).1,
   ((trade_updates_inventory_by_one PlayerName.Seller invW [] tradeSellW).2.2.1
      (by decide) (by decide) (by decide)).1,
   ((trade_updates_inventory_by_one PlayerName.Seller invW [] tradeSellW).2.2.1
      (by decide) (by decide) (by decide)).2 Card.Club (by decide)⟩

/-- C4 is refuted for the reactive variant: while the gate is Idle, an
`Update` carrying a trade the agent itself is the buyer of is skipped
entirely — the step returns the state unchanged (no inventory change, no
history growth), where the claim demands the local state be updated. -/
theorem idle_update_reactive_no_state_update_counterexample :
    edIdleW.trading = false ∧
    updTradeW.trade = some tradeBuyW ∧
    tradeBuyW.buyer = edIdleW.name ∧
    edStep edIdleW 0 (Event.update updTradeW) = Except.ok (edIdleW, []) ∧
    edIdleW.trades = [] ∧ edIdleW.inventory.get Card.Spade = 3 :=
  ⟨rfl, rfl, rfl, rfl, rfl, rfl⟩

/-- C4 amended: on an `Update` that arrives while the gate is Idle, both
variants submit zero orders; the polling variant's listener still applies a
carried trade to the cached inventory and history (its state updates
continue regardless of the gate), while the reactive variant skips the
event body entirely, leaving its local inventory and history unchanged. -/
theorem idle_update_no_orders_listener_still_updates
    (s : EventDrivenPlayer) (now : Nat) (u : MarketUpdate)
    (hidle : s.trading = false)
    (selfName : PlayerName) (lo hi elapsed : Nat) (inv : Inventory)
    (b1 b2 b3 b4 : Book) (cs : Nat) (ib : Bool) (ps ss : Nat)
    (name2 : PlayerName) (ls : GenericListener) (now2 : Nat)
    (u2 : MarketUpdate) (t : Trade) (ht : u2.trade = some t) :
    edStep s now (Event.update u) = Except.ok (s, []) ∧
    genericDecideStep selfName lo hi false elapsed inv b1 b2 b3 b4 cs ib ps ss =
      Except.ok ([], idleSleepMillis) ∧
    listenerStep name2 ls now2 (Event.update u2) = Except.ok { ls with
      inventory := (applyTrade name2 ls.inventory ls.trades (some t)).1,
      trades := ls.trades ++ [t],
      spades_book := u2.spades, clubs_book := u2.clubs,
      diamonds_book := u2.diamonds, hearts_book := u2.hearts } := by
  refine ⟨by simp [edStep, hidle], rfl, ?_⟩
  simp [listenerStep, ht, applyTrade]

/-- Witness for C4 (amended): concrete Idle states for both variants and a
concrete update carrying a trade. -/
theorem idle_update_no_orders_listener_still_updates_witness :
    edStep edIdleW 0 (Event.update updW) = Except.ok (edIdleW, []) ∧
    genericDecideStep PlayerName.Seller 10 20 false 0 invW bookW bookW bookW bookW
      0 true 0 0 = Except.ok ([], idleSleepMillis) ∧
    listenerStep PlayerName.PickOff glW 0 (Event.update updTradeW) = Except.ok { glW with
      inventory := (applyTrade PlayerName.PickOff glW.inventory glW.trades (some tradeBuyW)).1,
      trades := glW.trades ++ [tradeBuyW],
      spades_book := updTradeW.spades, clubs_book := updTradeW.clubs,
      diamonds_book := updTradeW.diamonds, hearts_book := updTradeW.hearts } :=
  idle_update_no_orders_listener_still_updates edIdleW 0 updW rfl PlayerName.Seller
    10 20 0 invW bookW bookW bookW bookW 0 true 0 0 PlayerName.PickOff glW 0
    updTradeW tradeBuyW rfl

/-- C5: for a `DealCards` whose mapping contains the agent, both variants
replace the whole inventory with the mapped value, open the gate and reset
the timer to the current instant; `EndRound` closes the gate in both
variants and changes nothing else. -/
theorem dealcards_replaces_inventory_endround_closes
    (s : EventDrivenPlayer) (now : Nat) (m : List (PlayerName × Inventory))
    (inv : Inventory) (hfind : lookupInv s.name m = some inv)
    (name2 : PlayerName) (ls : GenericListener) (now2 : Nat)
    (m2 : List (PlayerName × Inventory)) (inv2 : Inventory)
    (hfind2 : lookupInv name2 m2 = some inv2) :
    edStep s now (Event.dealCards m) =
      Except.ok ({ s with inventory := inv, trading := true, timer := now }, []) ∧
    edStep s now Event.endRound = Except.ok ({ s with trading := false }, []) ∧
    listenerStep name2 ls now2 (Event.dealCards m2) =
      Except.ok { ls with inventory := inv2, trading := true, timer := now2 } ∧
    listenerStep name2 ls now2 Event.endRound =
      Except.ok { ls with trading := false } := by
  refine ⟨?_, rfl, ?_, rfl⟩
  · simp [edStep, hfind]
  · simp [listenerStep, hfind2]

/-- Witness for C5: a concrete mapping containing the agent; the prior
inventory (`invW`) is fully replaced by the mapped `invW2`. -/
theorem dealcards_replaces_inventory_endround_closes_witness :
    edStep edIdleW 5 (Event.dealCards mW) =
      Except.ok ({ edIdleW with inventory := invW2, trading := true, timer := 5 }, []) ∧
    edStep edIdleW 5 Event.endRound = Except.ok ({ edIdleW with trading := false }, []) ∧
    listenerStep PlayerName.PickOff glW 5 (Event.dealCards mW) =
      Except.ok { glW with inventory := invW2, trading := true, timer := 5 } ∧
    listenerStep PlayerName.PickOff glW 5 Event.endRound =
      Except.ok { glW with trading := false } :=
  dealcards_replaces_inventory_endround_closes edIdleW 5 mW invW2 rfl
    PlayerName.PickOff glW 5 mW invW2 rfl

/-- C6: a `DealCards` whose mapping lacks the receiving agent panics the
event loop (`Option::unwrap` on `None`): the reactive loop aborts with the
panic and the remaining events — whatever they are — are never processed,
and the polling listener's step aborts the same way; in neither variant is
the gate opened or a default inventory substituted. -/
theorem missing_dealcards_inventory_is_fatal
    (s : EventDrivenPlayer) (now : Nat) (m : List (PlayerName × Inventory))
    (hmiss : lookupInv s.name m = none) (rest : List (Nat × Event))
    (name2 : PlayerName) (ls : GenericListener) (now2 : Nat)
    (m2 : List (PlayerName × Inventory)) (hmiss2 : lookupInv name2 m2 = none) :
    edRun s ((now, Event.dealCards m) :: rest) = Except.error Panic.unwrapNone ∧
    edStep s now (Event.dealCards m) = Except.error Panic.unwrapNone ∧
    listenerStep name2 ls now2 (Event.dealCards m2) = Except.error Panic.unwrapNone := by
  have h1 : edStep s now (Event.dealCards m) = Except.error Panic.unwrapNone := by
    simp [edStep, hmiss]
  refine ⟨?_, h1, ?_⟩
  · simp [edRun, h1]
  · simp [listenerStep, hmiss2]

/-- Witness for C6: a mapping holding only `Noisy`, received by `PickOff`,
with one further event pending that is never processed. -/
theorem missing_dealcards_inventory_is_fatal_witness :
    edRun edIdleW [(0, Event.dealCards mMissW), (7, Event.endRound)] =
      Except.error Panic.unwrapNone ∧
    edStep edIdleW 0 (Event.dealCards mMissW) = Except.error Panic.unwrapNone ∧
    listenerStep PlayerName.PickOff glW 0 (Event.dealCards mMissW) =
      Except.error Panic.unwrapNone :=
  missing_dealcards_inventory_is_fatal edIdleW 0 mMissW rfl [(7, Event.endRound)]
    PlayerName.PickOff glW 0 mMissW rfl

/-- C7 exposes a divergence between the two variants: the reactive loop
treats a receive error as a logged warning and continues with an unchanged
state, but the generic (polling) listener calls `.unwrap()` on the receive
result, so a lagged subscriber — a missed event — panics and terminates the
listener task instead of resuming on the next event. -/
theorem lagged_recv_generic_listener_panics :
    edRecvStep edIdleW 0 RecvResult.lagged = Except.ok (edIdleW, []) ∧
    listenerRecvStep PlayerName.Seller glW 0 RecvResult.lagged =
      Except.error Panic.unwrapRecvErr :=
  ⟨rfl, rfl⟩

/-- Helper: a conditional between two successful results is successful. -/
theorem ite_ok_exists (c : Prop) [Decidable c] (x y : List Order) :
    ∃ os, (if c then Except.ok x else Except.ok y : Except Panic (List Order)) =
      Except.ok os := by
  by_cases h : c
  · exact ⟨x, by rw [if_pos h]⟩
  · exact ⟨y, by rw [if_neg h]⟩

/-- Helper: `noisy_trader` never panics, since both of its ranges are
non-empty. -/
theorem noisy_trader_ok (selfName : PlayerName) (inv : Inventory)
    (b1 b2 b3 b4 : Book) (cs : Nat) (ib : Bool) (ps : Nat) :
    ∃ os, noisy_trader selfName inv b1 b2 b3 b4 cs ib ps = Except.ok os := by
  have h5 : genRange 1 5 cs = some (1 + cs % 4) := by simp [genRange]
  have h15 : genRange 1 15 ps = some (1 + ps % 14) := by simp [genRange]
  unfold noisy_trader
  rw [h5, h15]
  cases ib <;> dsimp only <;> exact ite_ok_exists _ _ _

/-- C8: a Trading iteration of the polling decision loop sleeps
`gen_range(lower..higher)` milliseconds, a draw that always lies in the
half-open interval `[lower, higher)` and for which every value of that
interval is reached by some seed; an Idle iteration sleeps the fixed
1-second quantum (a strictly positive duration) before re-checking the
gate, so the loop never busy-spins while Idle. -/
theorem decision_loop_sleep_bounds
    (selfName : PlayerName) (lo hi elapsed : Nat) (inv : Inventory)
    (b1 b2 b3 b4 : Book) (cs : Nat) (ib : Bool) (ps ss v : Nat)
    (hlt : lo < hi) (hel : elapsed ≤ 240) (hv1 : lo ≤ v) (hv2 : v < hi) :
    (∃ orders, genericDecideStep selfName lo hi true elapsed inv b1 b2 b3 b4 cs ib ps ss =
        Except.ok (orders, lo + ss % (hi - lo))) ∧
    lo ≤ lo + ss % (hi - lo) ∧
    lo + ss % (hi - lo) < hi ∧
    genRange lo hi (v - lo) = some v ∧
    genericDecideStep selfName lo hi false elapsed inv b1 b2 b3 b4 cs ib ps ss =
      Except.ok ([], idleSleepMillis) ∧
    0 < idleSleepMillis := by
  have hsub : u64Sub 240 elapsed = some (240 - elapsed) := by simp [u64Sub, hel]
  have hgen : genRange lo hi ss = some (lo + ss % (hi - lo)) := by simp [genRange, hlt]
  have hmod : ss % (hi - lo) < hi - lo := Nat.mod_lt _ (Nat.sub_pos_of_lt hlt)
  refine ⟨?_, Nat.le_add_right _ _, by omega, ?_, rfl, by decide⟩
  · obtain ⟨os, hos⟩ := noisy_trader_ok selfName inv b1 b2 b3 b4 cs ib ps
    cases selfName with
    | PickOff => exact ⟨[], by simp [genericDecideStep, hsub, hgen]⟩
    | Noisy => exact ⟨os, by simp [genericDecideStep, hsub, hgen, hos]⟩
    | Seller =>
      exact ⟨sell_inventory PlayerName.Seller (240 - elapsed) inv.spades b1 Card.Spade ++
             sell_inventory PlayerName.Seller (240 - elapsed) inv.clubs b2 Card.Club ++
             sell_inventory PlayerName.Seller (240 - elapsed) inv.diamonds b3 Card.Diamond ++
             sell_inventory PlayerName.Seller (240 - elapsed) inv.hearts b4 Card.Heart,
             by simp [genericDecideStep, hsub, hgen]⟩
    | Spread =>
      exact ⟨provide_spread PlayerName.Spread (240 - elapsed) inv.spades b1 Card.Spade ++
             provide_spread PlayerName.Spread (240 - elapsed) inv.clubs b2 Card.Club ++
             provide_spread PlayerName.Spread (240 - elapsed) inv.diamonds b3 Card.Diamond ++
             provide_spread PlayerName.Spread (240 - elapsed) inv.hearts b4 Card.Heart,
             by simp [genericDecideStep, hsub, hgen]⟩
  · have hlt2 : v - lo < hi - lo := by omega
    have hv : lo + (v - lo) % (hi - lo) = v := by rw [Nat.mod_eq_of_lt hlt2]; omega
    simp [genRange, hlt, hv]

/-- Witness for C8 at concrete bounds 10 and 20, seed 25 and interval
value 17. -/
theorem decision_loop_sleep_bounds_witness :
    (∃ orders, genericDecideStep PlayerName.Seller 10 20 true 40 invW bookW bookW bookW bookW
        0 true 0 25 = Except.ok (orders, 10 + 25 % 10)) ∧
    10 ≤ 10 + 25 % 10 ∧ 10 + 25 % 10 < 20 ∧
    genRange 10 20 (17 - 10) = some 17 ∧
    genericDecideStep PlayerName.Seller 10 20 false 40 invW bookW bookW bookW bookW
      0 true 0 25 = Except.ok ([], idleSleepMillis) ∧
    0 < idleSleepMillis :=
  decision_loop_sleep_bounds PlayerName.Seller 10 20 40 invW bookW bookW bookW bookW
    0 true 0 25 17 (by decide) (by decide) (by decide) (by decide)

/-- Helper: an order `send_order` submits carries the instrument it was
called with. -/
theorem sendOrder_card_eq (selfName : PlayerName) (price : Nat)
    (direction : Direction) (card : Card) (book : Book) (o : Order)
    (h : sendOrder selfName price direction card book = some o) : o.card = card := by
  unfold sendOrder at h
  dsimp only at h
  split at h
  · cases h
    rfl
  · cases h

/-- Helper: membership form of `sendOrder_card_eq` over `Option.toList`. -/
theorem sendOrder_mem_card (selfName : PlayerName) (price : Nat)
    (direction : Direction) (card : Card) (book : Book) :
    ∀ o ∈ (sendOrder selfName price direction card book).toList, o.card = card := by
  intro o ho
  cases hso : sendOrder selfName price direction card book with
  | none => rw [hso] at ho; simp at ho
  | some o2 =>
    rw [hso] at ho
    simp at ho
    subst ho
    exact sendOrder_card_eq _ _ _ _ _ _ hso

/-- Helper: every order `sell_inventory` emits carries its instrument. -/
theorem sell_inventory_mem_card (selfName : PlayerName)
    (seconds_left inventory : Nat) (book : Book) (card : Card) :
    ∀ o ∈ sell_inventory selfName seconds_left inventory book card, o.card = card := by
  intro o ho
  unfold sell_inventory at ho
  split at ho
  · split at ho
    · split at ho
      · exact sendOrder_mem_card _ _ _ _ _ o ho
      · simp at ho
    · split at ho
      · exact sendOrder_mem_card _ _ _ _ _ o ho
      · simp at ho
  · simp at ho

/-- C9: a Seller-strategy decision iteration holding three spades, observing
a spade book whose ask price is 8 and owned by another agent, with 200
seconds of round time remaining (40 of 240 seconds elapsed), submits
exactly one spade order — a Sell at price 7 = ask − 1 — and that order
passes the order gate. -/
theorem seller_sells_spade_at_seven
    (sb cb db hb : Book) (inv : Inventory) (lo hi cs ps ss : Nat) (ib : Bool)
    (hinv : inv.spades = 3) (hask : sb.ask.price = 8)
    (howner : sb.ask.player_name ≠ PlayerName.Seller) (hlt : lo < hi) :
    sendOrder PlayerName.Seller 7 Direction.Sell Card.Spade sb = some orderW ∧
    sell_inventory PlayerName.Seller 200 inv.spades sb Card.Spade = [orderW] ∧
    ∃ orders d,
      genericDecideStep PlayerName.Seller lo hi true 40 inv sb cb db hb cs ib ps ss =
        Except.ok (orders, d) ∧
      orders.filter (fun o => decide (o.card = Card.Spade)) = [orderW] := by
  have himp : sb.ask.price > 7 ∧ sb.ask.player_name ≠ PlayerName.Seller := by
    rw [hask]
    exact ⟨by norm_num, howner⟩
  have hsend7 : sendOrder PlayerName.Seller 7 Direction.Sell Card.Spade sb = some orderW := by
    simp [sendOrder, himp, orderW]
  have hsell : sell_inventory PlayerName.Seller 200 inv.spades sb Card.Spade = [orderW] := by
    rw [hinv]
    have h81 : sb.ask.price - 1 = 7 := by rw [hask]
    simp [sell_inventory, hask, h81, hsend7]
  refine ⟨hsend7, hsell,
    sell_inventory PlayerName.Seller 200 inv.spades sb Card.Spade ++
    sell_inventory PlayerName.Seller 200 inv.clubs cb Card.Club ++
    sell_inventory PlayerName.Seller 200 inv.diamonds db Card.Diamond ++
    sell_inventory PlayerName.Seller 200 inv.hearts hb Card.Heart,
    lo + ss % (hi - lo), ?_, ?_⟩
  · have hsub : u64Sub 240 40 = some 200 := rfl
    have hgen : genRange lo hi ss = some (lo + ss % (hi - lo)) := by simp [genRange, hlt]
    simp [genericDecideStep, hsub, hgen]
  · rw [hsell]
    have h2 := sell_inventory_mem_card PlayerName.Seller 200 inv.clubs cb Card.Club
    have h3 := sell_inventory_mem_card PlayerName.Seller 200 inv.diamonds db Card.Diamond
    have h4 := sell_inventory_mem_card PlayerName.Seller 200 inv.hearts hb Card.Heart
    have e2 : (sell_inventory PlayerName.Seller 200 inv.clubs cb Card.Club).filter
        (fun o => decide (o.card = Card.Spade)) = [] :=
      List.filter_eq_nil_iff.mpr fun a ha => by simp [h2 a ha]
    have e3 : (sell_inventory PlayerName.Seller 200 inv.diamonds db Card.Diamond).filter
        (fun o => decide (o.card = Card.Spade)) = [] :=
      List.filter_eq_nil_iff.mpr fun a ha => by simp [h3 a ha]
    have e4 : (sell_inventory PlayerName.Seller 200 inv.hearts hb Card.Heart).filter
        (fun o => decide (o.card = Card.Spade)) = [] :=
      List.filter_eq_nil_iff.mpr fun a ha => by simp [h4 a ha]
    simp [List.filter_append, e2, e3, e4, orderW]

/-- Witness for C9 at the concrete Scenario-A data: `invW` holds three
spades and `bookW` has ask price 8 owned by `Noisy`. -/
theorem seller_sells_spade_at_seven_witness :
    sendOrder PlayerName.Seller 7 Direction.Sell Card.Spade bookW = some orderW ∧
    sell_inventory PlayerName.Seller 200 invW.spades bookW Card.Spade = [orderW] ∧
    ∃ orders d,
      genericDecideStep PlayerName.Seller 10 20 true 40 invW bookW bookW bookW bookW
        0 true 0 5 = Except.ok (orders, d) ∧
      orders.filter (fun o => decide (o.card = Card.Spade)) = [orderW] :=
  seller_sells_spade_at_seven bookW bookW bookW bookW invW 10 20 0 0 5 true
    rfl rfl (by decide) (by decide)

/-- C10: the remaining round time is the u64 subtraction `240 − elapsed`,
well-defined exactly when at most 240 seconds have elapsed since the last
timer reset; past that point the subtraction underflows — the reactive
update step and a Trading polling iteration abort with the underflow panic
rather than producing zero or a negative remaining time. -/
theorem seconds_left_subtraction_underflows
    (e1 e2 : Nat) (s : EventDrivenPlayer) (now : Nat) (u : MarketUpdate)
    (selfName : PlayerName) (lo hi : Nat) (inv : Inventory)
    (b1 b2 b3 b4 : Book) (cs : Nat) (ib : Bool) (ps ss : Nat)
    (he1 : e1 ≤ 240) (he2 : 240 < e2)
    (htr : s.trading = true) (hlate : 240 < now - s.timer) :
    u64Sub 240 e1 = some (240 - e1) ∧
    u64Sub 240 e2 = none ∧
    edStep s now (Event.update u) = Except.error Panic.subUnderflow ∧
    genericDecideStep selfName lo hi true e2 inv b1 b2 b3 b4 cs ib ps ss =
      Except.error Panic.subUnderflow := by
  have hn : u64Sub 240 e2 = none := by
    unfold u64Sub
    rw [if_neg (by omega)]
  have hn2 : u64Sub 240 (now - s.timer) = none := by
    unfold u64Sub
    rw [if_neg (by omega)]
  refine ⟨by simp [u64Sub, he1], hn, ?_, ?_⟩
  · simp [edStep, htr, hn2]
  · simp [genericDecideStep, hn]

/-- Witness for C10: 100 elapsed seconds subtract cleanly; 250 elapsed
seconds underflow and panic both variants. -/
theorem seconds_left_subtraction_underflows_witness :
    u64Sub 240 100 = some (240 - 100) ∧
    u64Sub 240 250 = none ∧
    edStep edTradingW 300 (Event.update updW) = Except.error Panic.subUnderflow ∧
    genericDecideStep PlayerName.Seller 10 20 true 250 invW bookW bookW bookW bookW
      0 true 0 0 = Except.error Panic.subUnderflow :=
  seconds_left_subtraction_underflows 100 250 edTradingW 300 updW PlayerName.Seller
    10 20 invW bookW bookW bookW bookW 0 true 0 0 (by decide) (by decide) rfl (by decide)

end FiggieAuto
